import Mathlib

/-!
Verification of the Missing-945 reconciliation pipeline (src/main.py).

The pipeline receives three decoded tables (shipment history, EDI B2Bi
report, EDI 940 report), trims their headers in place, validates the three
required key columns, left-joins twice, projects twice against fixed
allow-lists, renames four columns, filters on two status columns when both
are present, deduplicates by Pickticket, and returns the result table.

A table is modelled as an ordered list of column names together with a list
of rows; each cell is `Option String` where `none` stands for a null (NaN)
cell.  Pandas-specific behaviour that the code relies on is embedded
explicitly:
  * `pd.merge(..., how = left, left_on = [kL], right_on = [kR])` keeps every
    left row (null-filling unmatched right columns), appends the right
    columns after the left ones, and suffixes every column name occurring in
    both frames with `_x` (left occurrence) and `_y` (right occurrence);
    it raises a KeyError when a join key column is absent (modelled as
    `Except.error` carrying the key name);
  * `drop_duplicates(subset = [k])` keeps the first row per key value and
    treats NaN keys as equal to each other;
  * `isin([v])` is exact, case-sensitive string equality, false on NaN.
-/

/-- A cell of a table: `none` models a null / NaN value. -/
abbrev Cell := Option String

/-- A pandas DataFrame, shallowly: ordered column names plus rows of cells.
Well-formed tables have every row of length `cols.length`; theorems state
that hypothesis where they need it. -/
structure Table where
  cols : List String
  rows : List (List Cell)
deriving Repr, DecidableEq

/-- Cell of row `r` at column index `i` (null when out of range). -/
def cellIdx (r : List Cell) (i : Nat) : Cell :=
  r.getD i none

/-- Cell of row `r` at the first column named `name` (null when absent),
mirroring pandas label-based column access. -/
def cellAt (cols : List String) (r : List Cell) (name : String) : Cell :=
  match cols.findIdx? (fun c => c == name) with
  | some i => cellIdx r i
  | none => none

/-- Python `str.strip()`: remove leading and trailing whitespace.  Embedded
structurally over the character list so that it is kernel-evaluable. -/
def strip (s : String) : String :=
  String.mk
    (((s.data.dropWhile Char.isWhitespace).reverse.dropWhile
        Char.isWhitespace).reverse)

/-- Header normalization, `df.columns = df.columns.astype(str).str.strip()`
(src/main.py lines 44-46 and 60): every column name is whitespace-trimmed;
the rows are untouched.  In the source this is an in-place assignment to the
`columns` attribute of the input frame. -/
def stripHeaders (t : Table) : Table :=
  { cols := t.cols.map strip, rows := t.rows }

/-- Column names of the merge result: left names then right names, any name
present in both sides suffixed with `_x` on the left and `_y` on the right
(pandas default suffixes for overlapping columns). -/
def suffixCols (lcols rcols : List String) : List String :=
  lcols.map (fun c => if rcols.contains c then c ++ "_x" else c) ++
    rcols.map (fun c => if lcols.contains c then c ++ "_y" else c)

/-- Rows of a left join: for each left row in order, append each matching
right row (matching compares the key cells, with null matching null, as
pandas merge does); a left row without matches is kept once, padded with
`nR` null cells. -/
def mergeRows (iL iR nR : Nat) (rrows : List (List Cell)) :
    List (List Cell) → List (List Cell)
  | [] => []
  | r :: rs =>
    (if (rrows.filter (fun s => cellIdx s iR == cellIdx r iL)).isEmpty then
      [r ++ List.replicate nR (none : Cell)]
    else
      (rrows.filter (fun s => cellIdx s iR == cellIdx r iL)).map
        (fun s => r ++ s)) ++
    mergeRows iL iR nR rrows rs

/-- The pandas call `pd.merge(L, R, how = left, left_on = [kL],
right_on = [kR])` (src/main.py lines 58-59 and 71-72).  When a key column is
absent pandas raises `KeyError(key)`; this is the `Except.error` branch. -/
def mergeLeft (L R : Table) (kL kR : String) : Except String Table :=
  match L.cols.findIdx? (fun c => c == kL) with
  | none => .error kL
  | some iL =>
    match R.cols.findIdx? (fun c => c == kR) with
    | none => .error kR
    | some iR =>
      .ok { cols := suffixCols L.cols R.cols,
            rows := mergeRows iL iR R.cols.length R.rows L.rows }

/-- Column projection `df[[c for c in keep if c in df.columns]]`: keep
exactly the present columns of the allow-list, in allow-list order
(src/main.py lines 62-69 and 74-83). -/
def project (keep : List String) (t : Table) : Table :=
  { cols := keep.filter (fun c => t.cols.contains c),
    rows := t.rows.map (fun r =>
      (keep.filter (fun c => t.cols.contains c)).map
        (fun c => cellAt t.cols r c)) }

/-- First allow-list (src/main.py lines 62-69). -/
def mergedKeepCols : List String :=
  ["Warehouse", "Pickticket", "Order", "Drop Date", "Ship Date", "Ship To",
   "Ship State", "Zip Code", "Customer PO", "Ship Via", "Load ID",
   "Weight", "SKU", "Units", "Price", "Size Type", "Size", "Product Type",
   "InvoiceNumber", "StatusSummary", "ERRORDESCRIPTION"]

/-- Second allow-list (src/main.py lines 74-83).  Note that here
`Pickticket` comes before `Warehouse`, unlike in `mergedKeepCols`. -/
def finalKeepCols : List String :=
  ["Pickticket", "Warehouse", "Order", "Drop Date", "Ship Date", "Ship To",
   "Ship State", "Zip Code", "Customer PO", "Ship Via", "Load ID",
   "Weight", "SKU", "Units", "Price", "Size Type", "Size", "Product Type",
   "InvoiceNumber", "StatusSummary", "ERRORDESCRIPTION",
   "PickRoute", "SalesHeaderStatus", "SalesHeaderDocStatus",
   "PickModeOfDelivery", "PickCreatedDate", "DeliveryDate"]

/-- The fixed rename mapping of src/main.py lines 85-90, as a total function
on column names (absent sources are no-ops because they simply never occur
in the column list). -/
def renameMap (c : String) : String :=
  if c == "InvoiceNumber" then "Received in EDI?"
  else if c == "StatusSummary" then "EDI Processing Status"
  else if c == "ERRORDESCRIPTION" then "EDI Message"
  else if c == "PickRoute" then "Found in AX DATa?"
  else c

/-- `df.rename(columns = {...})`: renames the listed columns where present,
leaves every other column unchanged, preserves order and rows. -/
def renameStep (t : Table) : Table :=
  { cols := t.cols.map renameMap, rows := t.rows }

/-- The conditional status filter (src/main.py lines 93-99): when both
`SalesHeaderDocStatus` and the post-rename `EDI Processing Status` columns
are present, keep exactly the rows whose cells equal `"Picking List"` and
`"AX Load Failure"` respectively; otherwise pass the table through. -/
def statusFilter (t : Table) : Table :=
  if "SalesHeaderDocStatus" ∈ t.cols ∧ "EDI Processing Status" ∈ t.cols then
    { cols := t.cols,
      rows := t.rows.filter (fun r =>
        (cellAt t.cols r "SalesHeaderDocStatus" == some "Picking List") &&
        (cellAt t.cols r "EDI Processing Status" == some "AX Load Failure")) }
  else t

/-- Core of `drop_duplicates(subset = [k])`: scan the rows in order keeping
a row only when its key cell was not seen before.  `seen` is the
accumulator of key cells already kept; null cells are ordinary values, so
all null-keyed rows share the single key `none` (pandas treats NaN keys as
duplicates of each other). -/
def dedupeRows (i : Nat) (seen : List Cell) :
    List (List Cell) → List (List Cell)
  | [] => []
  | r :: rs =>
    if cellIdx r i ∈ seen then dedupeRows i seen rs
    else r :: dedupeRows i (cellIdx r i :: seen) rs

/-- The conditional dedupe (src/main.py lines 101-102): when `Pickticket`
is present, `drop_duplicates(subset = [Pickticket])`; otherwise a no-op. -/
def dedupeStep (t : Table) : Table :=
  match t.cols.findIdx? (fun c => c == "Pickticket") with
  | some i => { cols := t.cols, rows := dedupeRows i [] t.rows }
  | none => t

/-- Errors the pipeline can abort with: the explicit missing-required-column
check of src/main.py lines 49-55 (an HTTPException carrying the table label,
the column name and the available columns), and the pandas KeyError raised
by `pd.merge` when a join key column is absent. -/
inductive RecError where
  | missingColumn (table : String) (col : String) (available : List String)
  | mergeKeyError (key : String)
deriving Repr, DecidableEq

instance {ε α : Type} [DecidableEq ε] [DecidableEq α] :
    DecidableEq (Except ε α) := fun a b =>
  match a, b with
  | .ok x, .ok y =>
    if h : x = y then .isTrue (by rw [h]) else .isFalse (by simp [h])
  | .error x, .error y =>
    if h : x = y then .isTrue (by rw [h]) else .isFalse (by simp [h])
  | .ok _, .error _ => .isFalse (by simp)
  | .error _, .ok _ => .isFalse (by simp)

/-- The pipeline after header normalization: required-column validation in
source order, first join, re-trim, first projection, second join, second
projection, rename, conditional filter, conditional dedupe
(src/main.py lines 49-102). -/
def reconcileCore (s1 s2 s3 : Table) : Except RecError Table :=
  if "Pickticket" ∉ s1.cols then
    .error (.missingColumn "Shipment_History___Total" "Pickticket" s1.cols)
  else if "AXReferenceID" ∉ s2.cols then
    .error (.missingColumn "EDIB2BiReportV2" "AXReferenceID" s2.cols)
  else if "PickRoute" ∉ s3.cols then
    .error (.missingColumn "EDI940Report_withCostV2.0" "PickRoute" s3.cols)
  else
    match mergeLeft s1 s2 "Pickticket" "AXReferenceID" with
    | .error k => .error (.mergeKeyError k)
    | .ok m =>
      match mergeLeft (project mergedKeepCols (stripHeaders m)) s3
          "Pickticket" "PickRoute" with
      | .error k => .error (.mergeKeyError k)
      | .ok f =>
        .ok (dedupeStep (statusFilter (renameStep (project finalKeepCols f))))

/-- The whole pipeline together with the final values of the three input
table variables.  The header normalization of src/main.py lines 44-46 is an
in-place assignment to `df1.columns`, `df2.columns`, `df3.columns`; the
variables are never rebound afterwards (all later stages bind fresh
variables), so modelling the state by explicit passing, the value of each
input variable after the call is its header-stripped form. -/
def reconcileWithFinals (d1 d2 d3 : Table) :
    Except RecError Table × (Table × Table × Table) :=
  (reconcileCore (stripHeaders d1) (stripHeaders d2) (stripHeaders d3),
   (stripHeaders d1, stripHeaders d2, stripHeaders d3))

/-- The reconciliation pipeline: three decoded tables in, result table or
error out. -/
def reconcile (d1 d2 d3 : Table) : Except RecError Table :=
  (reconcileWithFinals d1 d2 d3).1

/-- Final values of the three input table variables after the call. -/
def reconcileFinals (d1 d2 d3 : Table) : Table × Table × Table :=
  (reconcileWithFinals d1 d2 d3).2

/-- The second allow-list as the specification describes it: the first
allow-list followed by the six EDI-940 fields.  This definition follows the
wording of the spec, to be compared with `finalKeepCols`, which is read off
the source. -/
def specFinalKeepCols : List String :=
  mergedKeepCols ++
    ["PickRoute", "SalesHeaderStatus", "SalesHeaderDocStatus",
     "PickModeOfDelivery", "PickCreatedDate", "DeliveryDate"]

/-! Concrete example tables used by the closed theorems and witnesses. -/

/-- Shipment-history table of the end-to-end example. -/
def shipEx : Table :=
  { cols := ["Pickticket", "Warehouse"], rows := [[some "P1", some "W1"]] }

/-- EDI B2Bi table of the end-to-end example. -/
def edib2biEx : Table :=
  { cols := ["AXReferenceID", "InvoiceNumber"],
    rows := [[some "P1", some "X1"]] }

/-- EDI 940 table of the end-to-end example. -/
def edi940Ex : Table :=
  { cols := ["PickRoute", "SalesHeaderDocStatus"],
    rows := [[some "P1", some "Picking List"]] }

/-- Expected result of the end-to-end example. -/
def resultEx : Table :=
  { cols := ["Pickticket", "Warehouse", "Received in EDI?",
             "Found in AX DATa?", "SalesHeaderDocStatus"],
    rows := [[some "P1", some "W1", some "X1", some "P1",
              some "Picking List"]] }

/-- EDI B2Bi table sharing the non-key column `Warehouse` with the
shipment-history table. -/
def edib2biWh : Table :=
  { cols := ["AXReferenceID", "Warehouse"], rows := [[some "P1", some "W2"]] }

/-- Minimal EDI 940 table carrying only its key column. -/
def edi940Min : Table :=
  { cols := ["PickRoute"], rows := [[some "P1"]] }

/-- EDI B2Bi table that also carries a column named `Pickticket`, the name
of the left join key. -/
def edib2biPk : Table :=
  { cols := ["AXReferenceID", "Pickticket"], rows := [[some "P1", some "P9"]] }

/-- Shipment-history table whose key header carries surrounding blanks. -/
def shipPad : Table :=
  { cols := [" Pickticket "], rows := [[some "P1"]] }

/-- Shipment-history table without the required `Pickticket` column. -/
def shipNoKey : Table :=
  { cols := ["Ticket"], rows := [[some "P1"]] }

/-- Table carrying both status columns, for filter instances. -/
def tFil : Table :=
  { cols := ["SalesHeaderDocStatus", "EDI Processing Status"],
    rows := [[some "Picking List", some "AX Load Failure"],
             [some "Other", some "OK"],
             [some "Picking List", some "OK"],
             [some "Other", some "AX Load Failure"]] }

/-- A row of `tFil` matching both filter predicates. -/
def rFil : List Cell := [some "Picking List", some "AX Load Failure"]

/-- Table missing the post-rename status column, for the filter no-op. -/
def tNoFil : Table :=
  { cols := ["SalesHeaderDocStatus"], rows := [[some "x"]] }

/-- Table with duplicate `Pickticket` values, for dedupe instances. -/
def tDup : Table :=
  { cols := ["Pickticket", "Warehouse"],
    rows := [[some "P1", some "A"], [some "P1", some "B"],
             [some "P2", some "C"], [some "P1", some "D"]] }

/-- Table with several null `Pickticket` cells, for the null-key dedupe. -/
def tNull : Table :=
  { cols := ["Pickticket"], rows := [[none], [none], [some "P1"], [none]] }

/-- EDI B2Bi table none of whose keys match `shipEx`, for the unmatched
left-join instance. -/
def edib2biNoMatch : Table :=
  { cols := ["AXReferenceID", "InvoiceNumber"],
    rows := [[some "Q9", some "X9"]] }

/-- Table carrying `Warehouse` before `Pickticket`, for projection order. -/
def tBothW : Table :=
  { cols := ["Warehouse", "Pickticket"], rows := [] }

/-- Merge of `shipEx` with `edib2biNoMatch`: the left row is unmatched, so
it appears exactly once, padded with null cells. -/
def mergeNoMatchEx : Table :=
  { cols := ["Pickticket", "Warehouse", "AXReferenceID", "InvoiceNumber"],
    rows := [[some "P1", some "W1", none, none]] }

/-! Claim theorems. -/

theorem dedupeRows_sublist (i : Nat) (seen : List Cell)
    (rows : List (List Cell)) :
    List.Sublist (dedupeRows i seen rows) rows := by
  induction rows generalizing seen with
  | nil => simp [dedupeRows]
  | cons r rs ih =>
    unfold dedupeRows
    split
    · exact List.Sublist.cons r (ih seen)
    · exact List.Sublist.cons₂ r (ih _)

theorem dedupeRows_filter_key (i : Nat) (v : Cell)
    (rows : List (List Cell)) :
    ∀ seen : List Cell,
    ((dedupeRows i seen rows).filter (fun r => cellIdx r i == v)) =
      if v ∈ seen then []
      else (rows.filter (fun r => cellIdx r i == v)).take 1 := by
  induction rows with
  | nil => intro seen; simp [dedupeRows]
  | cons r rs ih =>
    intro seen
    unfold dedupeRows
    by_cases hs : cellIdx r i ∈ seen
    · rw [if_pos hs, ih seen]
      by_cases hv : v ∈ seen
      · rw [if_pos hv, if_pos hv]
      · have hb : (cellIdx r i == v) = false := by
          simp only [beq_eq_false_iff_ne, ne_eq]
          intro heq
          rw [heq] at hs
          exact hv hs
        rw [if_neg hv, if_neg hv, List.filter_cons, hb]
        simp only [Bool.false_eq_true, if_false]
    · rw [if_neg hs]
      by_cases hrv : cellIdx r i = v
      · subst hrv
        rw [List.filter_cons, List.filter_cons, ih (cellIdx r i :: seen),
          if_pos (List.mem_cons_self _ _), if_neg hs]
        simp
      · have hb : (cellIdx r i == v) = false := by
          simp only [beq_eq_false_iff_ne, ne_eq]
          exact hrv
        rw [List.filter_cons, List.filter_cons, ih (cellIdx r i :: seen), hb]
        simp only [Bool.false_eq_true, if_false]
        by_cases hv : v ∈ seen
        · rw [if_pos (List.mem_cons_of_mem _ hv), if_pos hv]
        · have hnc : v ∉ cellIdx r i :: seen := by
            intro hm
            rcases List.mem_cons.mp hm with h1 | h2
            · exact hrv h1.symm
            · exact hv h2
          rw [if_neg hnc, if_neg hv]

theorem findIdx_none_of_not_mem (l : List String) (c : String)
    (h : c ∉ l) : l.findIdx? (fun x => x == c) = none := by
  rw [List.findIdx?_eq_none_iff]
  intro x hx
  simp only [beq_eq_false_iff_ne, ne_eq]
  intro hxc
  rw [hxc] at hx
  exact h hx

/-- C3: when the column `Pickticket` is present (at index `i`), the dedupe
step keeps, for every key value, exactly the first row carrying that value
(the kept rows with a given key are the one-element prefix of the rows with
that key), and the survivors appear in their original relative order (the
result is a sublist of the input rows); when `Pickticket` is absent the
step is a no-op. -/
theorem dedupe_spec (t : Table) :
    ("Pickticket" ∉ t.cols → dedupeStep t = t) ∧
    (∀ i, t.cols.findIdx? (fun c => c == "Pickticket") = some i →
      List.Sublist (dedupeStep t).rows t.rows ∧
      ∀ v : Cell,
        ((dedupeStep t).rows.filter (fun r => cellIdx r i == v)) =
          (t.rows.filter (fun r => cellIdx r i == v)).take 1) := by
  constructor
  · intro h
    unfold dedupeStep
    rw [findIdx_none_of_not_mem t.cols "Pickticket" h]
  · intro i hi
    unfold dedupeStep
    rw [hi]
    constructor
    · exact dedupeRows_sublist i [] t.rows
    · intro v
      have h := dedupeRows_filter_key i v t.rows []
      rwa [if_neg (List.not_mem_nil v)] at h

/-- Witness for C3: on `tDup` the survivors are a sublist of the input and
the rows keyed `P1` reduce to the first one. -/
theorem dedupe_spec_witness :
    List.Sublist (dedupeStep tDup).rows tDup.rows ∧
    ((dedupeStep tDup).rows.filter
        (fun r => cellIdx r 0 == (some "P1" : Cell))) =
      (tDup.rows.filter (fun r => cellIdx r 0 == (some "P1" : Cell))).take 1 := by
  have h := (dedupe_spec tDup).2 0 (by decide)
  exact ⟨h.1, h.2 (some "P1")⟩

/-- C9: rows with a null `Pickticket` cell share the single dedupe key
`none`, so only the first null-keyed row survives the dedupe step: the
surviving null-keyed rows are the one-element prefix of the input
null-keyed rows, and at most one row with a null key remains. -/
theorem dedupe_null_keys (t : Table) (i : Nat)
    (hi : t.cols.findIdx? (fun c => c == "Pickticket") = some i) :
    ((dedupeStep t).rows.filter (fun r => cellIdx r i == (none : Cell))) =
      (t.rows.filter (fun r => cellIdx r i == (none : Cell))).take 1 ∧
    ((dedupeStep t).rows.countP
        (fun r => cellIdx r i == (none : Cell))) ≤ 1 := by
  unfold dedupeStep
  rw [hi]
  have h := dedupeRows_filter_key i (none : Cell) t.rows []
  rw [if_neg (List.not_mem_nil _)] at h
  refine ⟨h, ?_⟩
  rw [List.countP_eq_length_filter, h]
  calc ((t.rows.filter (fun r => cellIdx r i == (none : Cell))).take 1).length
      ≤ 1 := by
        rw [List.length_take]
        exact min_le_left 1 _

/-- Witness for C9: on `tNull`, which has three null-keyed rows, only the
first survives. -/
theorem dedupe_null_keys_witness :
    ((dedupeStep tNull).rows.filter
        (fun r => cellIdx r 0 == (none : Cell))) =
      (tNull.rows.filter (fun r => cellIdx r 0 == (none : Cell))).take 1 ∧
    ((dedupeStep tNull).rows.countP
        (fun r => cellIdx r 0 == (none : Cell))) ≤ 1 :=
  dedupe_null_keys tNull 0 (by decide)

/-- C1: running the pipeline on the end-to-end example succeeds, the filter
step is skipped because the post-rename column `EDI Processing Status` is
absent from the result (applying the filter to the result is the identity),
and the result has exactly one row carrying Pickticket `P1`, Warehouse
`W1`, Received in EDI? `X1`, Found in AX DATa? `P1` and
SalesHeaderDocStatus `Picking List`. -/
theorem reconcile_end_to_end :
    reconcile shipEx edib2biEx edi940Ex = .ok resultEx ∧
    "EDI Processing Status" ∉ resultEx.cols ∧
    statusFilter resultEx = resultEx ∧
    resultEx.rows = [[some "P1", some "W1", some "X1", some "P1",
                      some "Picking List"]] := by
  decide

/-- C2: when both `SalesHeaderDocStatus` and the post-rename
`EDI Processing Status` columns are present, a row is kept by the filter
step exactly when its `SalesHeaderDocStatus` cell is the string
`Picking List` and its `EDI Processing Status` cell is the string
`AX Load Failure` (exact, case-sensitive equality); when either column is
absent the filter step returns the table unchanged. -/
theorem statusFilter_spec (t : Table) :
    ("SalesHeaderDocStatus" ∈ t.cols ∧ "EDI Processing Status" ∈ t.cols →
      ∀ r, (r ∈ (statusFilter t).rows ↔
        r ∈ t.rows ∧
        cellAt t.cols r "SalesHeaderDocStatus" = some "Picking List" ∧
        cellAt t.cols r "EDI Processing Status" = some "AX Load Failure")) ∧
    (("SalesHeaderDocStatus" ∉ t.cols ∨ "EDI Processing Status" ∉ t.cols) →
      statusFilter t = t) := by
  constructor
  · intro h r
    unfold statusFilter
    rw [if_pos h]
    simp [List.mem_filter, and_assoc]
  · intro h
    have hn : ¬("SalesHeaderDocStatus" ∈ t.cols ∧
        "EDI Processing Status" ∈ t.cols) := by tauto
    unfold statusFilter
    rw [if_neg hn]

/-- Witness for C2: on `tFil` the fully matching row is kept, and on
`tNoFil`, which lacks the post-rename status column, the filter is the
identity. -/
theorem statusFilter_spec_witness :
    (rFil ∈ (statusFilter tFil).rows ↔
      rFil ∈ tFil.rows ∧
      cellAt tFil.cols rFil "SalesHeaderDocStatus" = some "Picking List" ∧
      cellAt tFil.cols rFil "EDI Processing Status" = some "AX Load Failure")
    ∧ statusFilter tNoFil = tNoFil :=
  ⟨(statusFilter_spec tFil).1 ⟨by decide, by decide⟩ rFil,
   (statusFilter_spec tNoFil).2 (Or.inr (by decide))⟩

/-- C10: when left and right tables of a join share a non-key column name
(`Warehouse` in both the shipment history and the EDI B2Bi table), the join
suffixes both occurrences with `_x` and `_y`, so neither matches the
projection allow-list and the column is silently absent from the result. -/
theorem merge_suffix_drops_shared_columns :
    "Warehouse" ∈ shipEx.cols ∧ "Warehouse" ∈ edib2biWh.cols ∧
    mergeLeft (stripHeaders shipEx) (stripHeaders edib2biWh)
        "Pickticket" "AXReferenceID" = .ok
      { cols := ["Pickticket", "Warehouse_x", "AXReferenceID", "Warehouse_y"],
        rows := [[some "P1", some "W1", some "P1", some "W2"]] } ∧
    "Warehouse" ∈ mergedKeepCols ∧
    reconcile shipEx edib2biWh edi940Min = .ok
      { cols := ["Pickticket", "Found in AX DATa?"],
        rows := [[some "P1", some "P1"]] } := by
  decide

/-- C4 (amended): when, after header normalization, `Pickticket` is absent
from the shipment-history columns (or, it being present, `AXReferenceID`
from the EDI B2Bi columns, or, both present, `PickRoute` from the EDI 940
columns), the pipeline fails with the missing-column error carrying the
offending table label, the missing column name and the columns actually
present, and no join output is produced — the error is decided before any
merge.  The checks run in source order, shipment history first. -/
theorem reconcile_missing_required (d1 d2 d3 : Table) :
    ("Pickticket" ∉ (stripHeaders d1).cols →
      reconcile d1 d2 d3 = .error (.missingColumn "Shipment_History___Total"
        "Pickticket" (stripHeaders d1).cols)) ∧
    ("Pickticket" ∈ (stripHeaders d1).cols →
      "AXReferenceID" ∉ (stripHeaders d2).cols →
      reconcile d1 d2 d3 = .error (.missingColumn "EDIB2BiReportV2"
        "AXReferenceID" (stripHeaders d2).cols)) ∧
    ("Pickticket" ∈ (stripHeaders d1).cols →
      "AXReferenceID" ∈ (stripHeaders d2).cols →
      "PickRoute" ∉ (stripHeaders d3).cols →
      reconcile d1 d2 d3 = .error (.missingColumn "EDI940Report_withCostV2.0"
        "PickRoute" (stripHeaders d3).cols)) := by
  refine ⟨?_, ?_, ?_⟩
  · intro h1
    simp only [reconcile, reconcileWithFinals, reconcileCore]
    rw [if_pos h1]
  · intro h1 h2
    simp only [reconcile, reconcileWithFinals, reconcileCore]
    rw [if_neg (not_not_intro h1), if_pos h2]
  · intro h1 h2 h3
    simp only [reconcile, reconcileWithFinals, reconcileCore]
    rw [if_neg (not_not_intro h1), if_neg (not_not_intro h2), if_pos h3]

/-- Witness for C4: a shipment-history table without `Pickticket` aborts
with the missing-column error naming the table, the column and the
available columns. -/
theorem reconcile_missing_required_witness :
    reconcile shipNoKey edib2biEx edi940Ex =
      .error (.missingColumn "Shipment_History___Total" "Pickticket"
        (stripHeaders shipNoKey).cols) ∧
    (stripHeaders shipNoKey).cols = ["Ticket"] :=
  ⟨(reconcile_missing_required shipNoKey edib2biEx edi940Ex).1 (by decide),
   by decide⟩

/-- Counterexample for C4: with every one of the three required key columns
present, the pipeline still fails fatally — `edib2biPk` carries a column
named `Pickticket`, the first join suffixes the left key column away, and
the second merge raises on the missing key — so the three key columns are
not the only fatal condition inside the pipeline. -/
theorem reconcile_fatal_without_missing_key :
    "Pickticket" ∈ (stripHeaders shipEx).cols ∧
    "AXReferenceID" ∈ (stripHeaders edib2biPk).cols ∧
    "PickRoute" ∈ (stripHeaders edi940Ex).cols ∧
    reconcile shipEx edib2biPk edi940Ex =
      .error (.mergeKeyError "Pickticket") := by
  decide

/-- Counterexample for C6: the allow-list of the second projection in the
source starts with `Pickticket, Warehouse`, not with the step-4 order
`Warehouse, Pickticket` that the claim describes; on a table carrying both
columns the code projects `Pickticket` first while the claimed list would
project `Warehouse` first. -/
theorem finalProjection_order_cex :
    specFinalKeepCols ≠ finalKeepCols ∧
    (project finalKeepCols tBothW).cols = ["Pickticket", "Warehouse"] ∧
    (project specFinalKeepCols tBothW).cols = ["Warehouse", "Pickticket"] := by
  decide

/-- C6 (amended): the second projection keeps exactly the present columns
of the fixed allow-list that starts `Pickticket, Warehouse` and then
continues with the remaining step-4 names followed by `PickRoute,
SalesHeaderStatus, SalesHeaderDocStatus, PickModeOfDelivery,
PickCreatedDate, DeliveryDate`, in that order; in particular, whenever both
are present, `Pickticket` precedes `Warehouse` in its output. -/
theorem finalProjection_order (t : Table)
    (h1 : "Pickticket" ∈ t.cols) (h2 : "Warehouse" ∈ t.cols) :
    (project finalKeepCols t).cols =
      "Pickticket" :: "Warehouse" ::
        ((finalKeepCols.drop 2).filter (fun c => t.cols.contains c)) := by
  have hc1 : t.cols.contains "Pickticket" = true := by
    simpa [List.contains, List.elem_iff] using h1
  have hc2 : t.cols.contains "Warehouse" = true := by
    simpa [List.contains, List.elem_iff] using h2
  show finalKeepCols.filter (fun c => t.cols.contains c) = _
  conv_lhs => rw [show finalKeepCols =
    "Pickticket" :: "Warehouse" :: finalKeepCols.drop 2 from rfl]
  rw [List.filter_cons, List.filter_cons]
  simp only [hc1, hc2, if_true]

/-- Witness for C6 (amended): on a table listing `Warehouse` before
`Pickticket`, the projection still emits `Pickticket` first. -/
theorem finalProjection_order_witness :
    (project finalKeepCols tBothW).cols =
      "Pickticket" :: "Warehouse" ::
        ((finalKeepCols.drop 2).filter (fun c => tBothW.cols.contains c)) :=
  finalProjection_order tBothW (by decide) (by decide)

/-- C8 (amended): the pipeline mutates its three input tables only by
writing the whitespace-trimmed headers back in place; the cell data is
never touched and every later stage operates on derived tables, so inputs
whose headers are already trimmed are exactly unchanged after the call. -/
theorem reconcile_finals_spec (d1 d2 d3 : Table) :
    reconcileFinals d1 d2 d3 =
      (stripHeaders d1, stripHeaders d2, stripHeaders d3) ∧
    (stripHeaders d1).rows = d1.rows ∧
    ((∀ c ∈ d1.cols, strip c = c) → (∀ c ∈ d2.cols, strip c = c) →
      (∀ c ∈ d3.cols, strip c = c) →
      reconcileFinals d1 d2 d3 = (d1, d2, d3)) := by
  have e : ∀ t : Table, (∀ c ∈ t.cols, strip c = c) → stripHeaders t = t := by
    intro t ht
    cases t with
    | mk cols rows =>
      unfold stripHeaders
      simp only [Table.mk.injEq, and_true]
      have h2 : ∀ a ∈ cols, strip a = id a := ht
      rw [List.map_congr_left h2, List.map_id]
  refine ⟨rfl, rfl, ?_⟩
  intro h1 h2 h3
  show (stripHeaders d1, stripHeaders d2, stripHeaders d3) = _
  rw [e d1 h1, e d2 h2, e d3 h3]

/-- Witness for C8 (amended): the end-to-end example tables have trimmed
headers and come back exactly unchanged. -/
theorem reconcile_finals_spec_witness :
    reconcileFinals shipEx edib2biEx edi940Ex =
      (shipEx, edib2biEx, edi940Ex) :=
  (reconcile_finals_spec shipEx edib2biEx edi940Ex).2.2
    (by decide) (by decide) (by decide)

/-- Counterexample for C8: a shipment-history table whose key header
carries surrounding blanks does not equal its pre-call value after the
pipeline runs, because the header normalization writes the trimmed names
back into the input table. -/
theorem reconcile_mutates_padded_headers :
    reconcileFinals shipPad edib2biEx edi940Ex ≠
      (shipPad, edib2biEx, edi940Ex) ∧
    (reconcileFinals shipPad edib2biEx edi940Ex).1 =
      { cols := ["Pickticket"], rows := [[some "P1"]] } := by
  decide

theorem mergeRows_left_total (iL iR nR : Nat) (rrows : List (List Cell))
    (lrows : List (List Cell)) :
    ∀ r ∈ lrows, ∃ s, (r ++ s) ∈ mergeRows iL iR nR rrows lrows := by
  induction lrows with
  | nil => intro r hr; cases hr
  | cons a as ih =>
    intro r hr
    rcases List.mem_cons.mp hr with h1 | h2
    · subst h1
      unfold mergeRows
      by_cases he :
          (rrows.filter (fun s => cellIdx s iR == cellIdx r iL)).isEmpty
      · refine ⟨List.replicate nR none, ?_⟩
        rw [if_pos he]
        exact List.mem_append_left _ (List.mem_cons_self _ _)
      · have hne := List.isEmpty_eq_false.mp (Bool.of_not_eq_true he)
        rcases List.exists_mem_of_ne_nil _ hne with ⟨s, hs⟩
        refine ⟨s, ?_⟩
        rw [if_neg he]
        exact List.mem_append_left _ (List.mem_map.mpr ⟨s, hs, rfl⟩)
    · rcases ih r h2 with ⟨s, hs⟩
      refine ⟨s, ?_⟩
      unfold mergeRows
      exact List.mem_append_right _ hs

theorem mergeRows_length (iL iR nR : Nat) (rrows : List (List Cell))
    (lrows : List (List Cell)) :
    lrows.length ≤ (mergeRows iL iR nR rrows lrows).length := by
  induction lrows with
  | nil => simp [mergeRows]
  | cons a as ih =>
    unfold mergeRows
    rw [List.length_append]
    have h1 : 1 ≤ (if (rrows.filter
        (fun s => cellIdx s iR == cellIdx a iL)).isEmpty then
          [a ++ List.replicate nR (none : Cell)]
        else (rrows.filter (fun s => cellIdx s iR == cellIdx a iL)).map
          (fun s => a ++ s)).length := by
      split
      · simp
      · rename_i he
        rw [List.length_map]
        have hne := List.isEmpty_eq_false.mp (Bool.of_not_eq_true he)
        exact List.length_pos.mpr hne
    simp only [List.length_cons]
    omega

theorem mergeRows_count_unmatched (iL iR nL nR : Nat)
    (rrows : List (List Cell)) (r : List Cell)
    (hr : r.length = nL)
    (hnm : ∀ s ∈ rrows, cellIdx s iR ≠ cellIdx r iL) :
    ∀ lrows : List (List Cell), (∀ r2 ∈ lrows, r2.length = nL) →
    (mergeRows iL iR nR rrows lrows).count
        (r ++ List.replicate nR (none : Cell)) = lrows.count r := by
  intro lrows
  induction lrows with
  | nil => intro _; simp [mergeRows]
  | cons a as ih =>
    intro hL
    have hLas : ∀ r2 ∈ as, r2.length = nL :=
      fun r2 h => hL r2 (List.mem_cons_of_mem a h)
    unfold mergeRows
    rw [List.count_append, ih hLas, List.count_cons]
    by_cases he :
        (rrows.filter (fun s => cellIdx s iR == cellIdx a iL)).isEmpty
    · rw [if_pos he, List.count_cons, List.count_nil]
      by_cases har : a = r
      · subst har
        simp
        omega
      · have hne : (a ++ List.replicate nR (none : Cell) ==
            r ++ List.replicate nR (none : Cell)) = false := by
          simp only [beq_eq_false_iff_ne, ne_eq]
          intro hab
          exact har (List.append_cancel_right hab)
        have hne2 : (a == r) = false := by
          simp only [beq_eq_false_iff_ne, ne_eq]
          exact har
        rw [hne, hne2]
        simp only [Bool.false_eq_true, if_false, Nat.add_zero, Nat.zero_add]
    · rw [if_neg he]
      have hnotmem : (r ++ List.replicate nR (none : Cell)) ∉
          (rrows.filter (fun s => cellIdx s iR == cellIdx a iL)).map
            (fun s => a ++ s) := by
        intro hm
        rcases List.mem_map.mp hm with ⟨s, hsmem, hseq⟩
        have hsR : s ∈ rrows := (List.mem_filter.mp hsmem).1
        have hsk := beq_iff_eq.mp (List.mem_filter.mp hsmem).2
        have hlens : a.length = r.length := by
          rw [hL a (List.mem_cons_self a as), hr]
        rcases List.append_inj hseq hlens with ⟨haeq, _⟩
        rw [haeq] at hsk
        exact hnm s hsR hsk
      rw [List.count_eq_zero.mpr hnotmem]
      have har : (a == r) = false := by
        simp only [beq_eq_false_iff_ne, ne_eq]
        intro hae
        have hne := List.isEmpty_eq_false.mp (Bool.of_not_eq_true he)
        rcases List.exists_mem_of_ne_nil _ hne with ⟨s, hsm⟩
        have h1 := List.mem_filter.mp hsm
        have hsk := beq_iff_eq.mp h1.2
        rw [hae] at hsk
        exact hnm s h1.1 hsk
      rw [har]
      simp only [Bool.false_eq_true, if_false, Nat.add_zero, Nat.zero_add]

/-- C5: a left join never drops left rows.  Every left row appears in the
merge output at least once (as the prefix of some output row), the output
has at least as many rows as the left table, and a left row whose key cell
matches no right key cell appears exactly as often as it occurs in the left
table, padded with one null cell per right column.  This covers both joins
of the pipeline (shipment history with the EDI B2Bi table on
`Pickticket = AXReferenceID`, and the projected table with the EDI 940
table on `Pickticket = PickRoute`). -/
theorem mergeLeft_cardinality (L R : Table) (kL kR : String) (M : Table)
    (iL iR : Nat)
    (hiL : L.cols.findIdx? (fun c => c == kL) = some iL)
    (hiR : R.cols.findIdx? (fun c => c == kR) = some iR)
    (hM : mergeLeft L R kL kR = .ok M) :
    (∀ r ∈ L.rows, ∃ s, (r ++ s) ∈ M.rows) ∧
    L.rows.length ≤ M.rows.length ∧
    (∀ r : List Cell, r.length = L.cols.length →
      (∀ r2 ∈ L.rows, r2.length = L.cols.length) →
      (∀ s ∈ R.rows, cellIdx s iR ≠ cellIdx r iL) →
      M.rows.count (r ++ List.replicate R.cols.length (none : Cell)) =
        L.rows.count r) := by
  have hMrows : M.rows = mergeRows iL iR R.cols.length R.rows L.rows := by
    unfold mergeLeft at hM
    rw [hiL, hiR] at hM
    rw [← Except.ok.inj hM]
  rw [hMrows]
  exact ⟨mergeRows_left_total iL iR R.cols.length R.rows L.rows,
    mergeRows_length iL iR R.cols.length R.rows L.rows,
    fun r h1 h2 h3 =>
      mergeRows_count_unmatched iL iR L.cols.length R.cols.length R.rows r
        h1 h3 L.rows h2⟩

/-- Witness for C5: joining `shipEx` with `edib2biNoMatch`, whose only key
matches nothing, keeps the left row exactly once with both right columns
null. -/
theorem mergeLeft_cardinality_witness :
    (∀ r ∈ shipEx.rows, ∃ s, (r ++ s) ∈ mergeNoMatchEx.rows) ∧
    shipEx.rows.length ≤ mergeNoMatchEx.rows.length ∧
    mergeNoMatchEx.rows.count
        ([some "P1", some "W1"] ++ List.replicate 2 (none : Cell)) =
      shipEx.rows.count [some "P1", some "W1"] := by
  have h := mergeLeft_cardinality shipEx edib2biNoMatch "Pickticket"
    "AXReferenceID" mergeNoMatchEx 0 0 (by decide) (by decide) (by decide)
  exact ⟨h.1, h.2.1,
    h.2.2 [some "P1", some "W1"] (by decide) (by decide) (by decide)⟩

theorem cols_statusFilter (t : Table) : (statusFilter t).cols = t.cols := by
  unfold statusFilter
  split <;> rfl

theorem cols_dedupeStep (t : Table) : (dedupeStep t).cols = t.cols := by
  unfold dedupeStep
  split <;> rfl

theorem renameMap_pickticket (c : String)
    (h : renameMap c = "Pickticket") : c = "Pickticket" := by
  unfold renameMap at h
  split_ifs at h with h1 h2 h3 h4
  · exact absurd h (by decide)
  · exact absurd h (by decide)
  · exact absurd h (by decide)
  · exact absurd h (by decide)
  · exact h

/-- C7: whenever the pipeline succeeds and the column `Pickticket` is
present in the result table, it is the first column of the result: the
final allow-list starts with `Pickticket`, the rename never produces or
consumes that name, and the filter and dedupe steps leave the columns
unchanged. -/
theorem result_pickticket_first (d1 d2 d3 : Table) (T : Table)
    (hok : reconcile d1 d2 d3 = .ok T)
    (hmem : "Pickticket" ∈ T.cols) :
    T.cols.head? = some "Pickticket" := by
  dsimp only [reconcile, reconcileWithFinals] at hok
  unfold reconcileCore at hok
  split at hok
  · exact Except.noConfusion hok
  split at hok
  · exact Except.noConfusion hok
  split at hok
  · exact Except.noConfusion hok
  split at hok
  · exact Except.noConfusion hok
  split at hok
  · exact Except.noConfusion hok
  rename_i f heq
  have hT := Except.ok.inj hok
  rw [← hT] at hmem ⊢
  rw [cols_dedupeStep, cols_statusFilter] at hmem ⊢
  dsimp only [renameStep, project] at hmem ⊢
  rcases List.mem_map.mp hmem with ⟨c, hc, hcr⟩
  have hcP : c = "Pickticket" := renameMap_pickticket c hcr
  rw [hcP] at hc
  have hp : ((fun c => f.cols.contains c) "Pickticket") = true :=
    (List.mem_filter.mp hc).2
  rw [show finalKeepCols = "Pickticket" :: finalKeepCols.tail from rfl,
    List.filter_cons, if_pos hp]
  simp only [List.map_cons, List.head?_cons]
  decide

/-- Witness for C7: the end-to-end example succeeds, its result carries
`Pickticket`, and `Pickticket` is its first column. -/
theorem result_pickticket_first_witness :
    resultEx.cols.head? = some "Pickticket" :=
  result_pickticket_first shipEx edib2biEx edi940Ex resultEx
    (by decide) (by decide)
